import Mathlib

/-!
Verification development for the analysis request/response pipeline of the
Reporter AI Editing Desk single-page client (src/src/App.jsx and
src/unnamed/part_000).  The core under study is `fetchGeminiAnalysis`:
input guard, prompt construction, retry loop with exponential backoff,
response classification, JSON cleaning and parsing, and the UI-level
handlers `handleFileChange` and the headline-count selector.

Transport (the `fetch` call) is external; it is modelled as an oracle
`Nat → FetchOutcome` giving the outcome of each attempt.  `JSON.parse` is a
JavaScript builtin; it is modelled by the executable parser `jparse` below
(JSON with objects, arrays, strings with the common escapes, integer
numbers, booleans and null; `\u` escapes and fraction/exponent number forms
are left unsupported, which no theorem below depends on).
-/

namespace AppPipeline

/-- Whitespace recognised by the model of `String.prototype.trim` and of the
JSON whitespace rule: space, tab, newline, carriage return. -/
def isWS (ch : Char) : Bool :=
  ch = ' ' || ch = '\t' || ch = '\n' || ch = '\r'

/-- Drop leading whitespace. -/
def ltrim (l : List Char) : List Char := List.dropWhile isWS l

/-- Drop trailing whitespace. -/
def rtrim (l : List Char) : List Char := (List.dropWhile isWS l.reverse).reverse

/-- Model of JavaScript `.trim()` on the character list of a string. -/
def trimChars (l : List Char) : List Char := rtrim (ltrim l)

/-- Skip leading whitespace while parsing JSON. -/
def skipWS (l : List Char) : List Char := List.dropWhile isWS l

/-- JSON values, the result type of the model of `JSON.parse`. -/
inductive JVal where
  | jnull : JVal
  | jbool : Bool → JVal
  | jnum : Int → JVal
  | jstr : String → JVal
  | jarr : List JVal → JVal
  | jobj : List (String × JVal) → JVal

/-- Decode a single-character JSON string escape (after a backslash). -/
def escChar (e : Char) : Option Char :=
  if e = '\x22' then some '\x22'
  else if e = '\\' then some '\\'
  else if e = '/' then some '/'
  else if e = 'n' then some '\n'
  else if e = 't' then some '\t'
  else if e = 'r' then some '\r'
  else if e = 'b' then some (Char.ofNat 8)
  else if e = 'f' then some (Char.ofNat 12)
  else none

/-- Parse the remainder of a JSON string literal (the opening quote already
consumed); returns the content characters and the rest of the input. -/
def parseStringRest : List Char → Option (List Char × List Char)
  | [] => none
  | '\\' :: rest =>
    match rest with
    | [] => none
    | e :: rest2 =>
      match escChar e, parseStringRest rest2 with
      | some c, some (cs, r) => some (c :: cs, r)
      | _, _ => none
  | '\x22' :: rest => some ([], rest)
  | c :: rest =>
    match parseStringRest rest with
    | some (cs, r) => some (c :: cs, r)
    | none => none

/-- Read a run of decimal digits, accumulating their value. -/
def readDigits : List Char → Nat → Nat × List Char
  | [], acc => (acc, [])
  | c :: rest, acc =>
    if c.isDigit then readDigits rest (acc * 10 + (c.toNat - 48))
    else (acc, c :: rest)

/-- Parsing mode: a single value, the items of an array (after the opening
bracket), or the members of an object (after the opening brace). -/
inductive PMode where
  | val : PMode
  | elems : PMode
  | members : PMode

/-- Fuel-indexed recursive-descent JSON parser; the model of `JSON.parse`.
In `elems` mode it returns a `jarr`, in `members` mode a `jobj`. -/
def parseF : Nat → PMode → List Char → Option (JVal × List Char)
  | 0, _, _ => none
  | fuel+1, PMode.val, l =>
    match skipWS l with
    | 'n' :: 'u' :: 'l' :: 'l' :: r => some (JVal.jnull, r)
    | 't' :: 'r' :: 'u' :: 'e' :: r => some (JVal.jbool true, r)
    | 'f' :: 'a' :: 'l' :: 's' :: 'e' :: r => some (JVal.jbool false, r)
    | '\x22' :: r =>
      match parseStringRest r with
      | some (cs, r2) => some (JVal.jstr (String.mk cs), r2)
      | none => none
    | '\x5b' :: r =>
      match skipWS r with
      | '\x5d' :: r2 => some (JVal.jarr [], r2)
      | _ => parseF fuel PMode.elems r
    | '\x7b' :: r =>
      match skipWS r with
      | '\x7d' :: r2 => some (JVal.jobj [], r2)
      | _ => parseF fuel PMode.members r
    | '-' :: r =>
      match r with
      | c :: _ =>
        if c.isDigit then
          match readDigits r 0 with
          | (n, r2) => some (JVal.jnum (-(n : Int)), r2)
        else none
      | [] => none
    | c :: r =>
      if c.isDigit then
        match readDigits (c :: r) 0 with
        | (n, r2) => some (JVal.jnum (n : Int), r2)
      else none
    | [] => none
  | fuel+1, PMode.elems, l =>
    match parseF fuel PMode.val l with
    | some (v, r) =>
      match skipWS r with
      | ',' :: r2 =>
        match parseF fuel PMode.elems r2 with
        | some (JVal.jarr vs, r3) => some (JVal.jarr (v :: vs), r3)
        | _ => none
      | '\x5d' :: r2 => some (JVal.jarr [v], r2)
      | _ => none
    | none => none
  | fuel+1, PMode.members, l =>
    match skipWS l with
    | '\x22' :: r =>
      match parseStringRest r with
      | some (kcs, r2) =>
        match skipWS r2 with
        | ':' :: r3 =>
          match parseF fuel PMode.val r3 with
          | some (v, r4) =>
            match skipWS r4 with
            | ',' :: r5 =>
              match parseF fuel PMode.members r5 with
              | some (JVal.jobj ms, r6) => some (JVal.jobj ((String.mk kcs, v) :: ms), r6)
              | _ => none
            | '\x7d' :: r5 => some (JVal.jobj [(String.mk kcs, v)], r5)
            | _ => none
          | none => none
        | _ => none
      | none => none
    | _ => none

/-- Run the JSON parser on a character list, requiring only trailing
whitespace after the parsed value. -/
def jparseCore (l : List Char) : Option JVal :=
  match parseF (2 * l.length + 2) PMode.val l with
  | some (v, r) => if skipWS r = [] then some v else none
  | none => none

/-- The model of `JSON.parse`: surrounding whitespace is tolerated (as
`JSON.parse` tolerates it), then the value must span the whole input. -/
def jparse (s : String) : Option JVal := jparseCore (trimChars s.data)

/-- Look up a field of a parsed JSON object; `none` both for absent fields
and for non-object values (the model of an undefined property access). -/
def getField (v : JVal) (k : String) : Option JVal :=
  match v with
  | JVal.jobj fs => List.lookup k fs
  | _ => none

/-- Model of the global regex replace in
`jsonText.replace(/\x60\x60\x60json|\x60\x60\x60/g, '')` (App.jsx:189): scan
left to right, removing each occurrence of three backticks followed by
`json`, or of three backticks alone. -/
def removeFences : List Char → List Char
  | a :: b :: c :: rest =>
    if a = '\x60' ∧ b = '\x60' ∧ c = '\x60' then
      match rest with
      | 'j' :: 's' :: 'o' :: 'n' :: r2 => removeFences r2
      | r => removeFences r
    else a :: removeFences (b :: c :: rest)
  | l => l

/-- Whether three consecutive backticks (a code-fence marker) occur in the
character list. -/
def hasFence : List Char → Bool
  | a :: b :: c :: rest =>
    if a = '\x60' ∧ b = '\x60' ∧ c = '\x60' then true
    else hasFence (b :: c :: rest)
  | _ => false

/-- The cleaning step of the parser (App.jsx:189):
`jsonText.replace(/\x60\x60\x60json|\x60\x60\x60/g, '').trim()`. -/
def cleanJson (s : String) : String := String.mk (trimChars (removeFences s.data))

/-- Wrap a string in code-fence markers: three backticks and `json`, a
newline, the body, a newline, and three closing backticks. -/
def wrapFences (s : String) : String :=
  "\x60\x60\x60json\n" ++ s ++ "\n\x60\x60\x60"

/-! ## Prompt construction (App.jsx:127-148) -/

/-- The part of the prompt template literal before the interpolated
`numHeadlines` (App.jsx:127-130). -/
def promptHead : String :=
  "You are a professional newspaper editor and language analyst. Your task is to analyze the provided article text.\n        1. **Error Highlighting**: Identify grammatical, spelling, and minor factual errors. Return the ORIGINAL text, but wrap all error words or phrases in a span with the CSS class \x27error-highlight\x27 (defined as text-red-600 font-bold). DO NOT correct the text here.\n        2. **Suggested Corrections**: For every grammatical, spelling, or factual error identified in the text, provide the exact original erroneous word/phrase and the single, best corrected word/phrase suggestion for it.\n        3. **Hindi Headlines**: Provide "

/-- The part of the prompt between `numHeadlines` and the article-text
marker (App.jsx:130-131). -/
def promptMid : String :=
  " sets of catchy, journalistic headlines and subheadlines written *exclusively* in **Hindi**.\n        "

/-- The marker that opens the article-text section of the prompt
(App.jsx:131); the user text is appended directly after it. -/
def artMarker : String := "4. **Article Text**: "

/-- The prompt template literal of `fetchGeminiAnalysis` (App.jsx:127-131),
with `numHeadlines` and `textInput` interpolated. -/
def promptText (numHeadlines : Nat) (textInput : String) : String :=
  promptHead ++ toString numHeadlines ++ promptMid ++ artMarker ++ textInput

/-- The transcription directive prefixed to the prompt when an image is
attached (App.jsx:145). -/
def imgDirective : String :=
  "First, transcribe the text from this image accurately. Once transcribed, perform the following analysis on the transcribed text: "

/-- The instruction text placed in the payload sent to transport: the image
prompt when an image part is attached, the plain prompt otherwise
(App.jsx:133-148). -/
def instructionText (hasImage : Bool) (numHeadlines : Nat) (textInput : String) : String :=
  if hasImage then imgDirective ++ promptText numHeadlines textInput
  else promptText numHeadlines textInput

/-! ## UI state handlers (App.jsx:229-238, 308-310) -/

/-- The relevant component state: the text area value and the selected image
file name (if any). -/
structure UIState where
  inputText : String
  imageFile : Option String

/-- The placeholder written into the text input when an image file is
selected (App.jsx:233). -/
def imagePlaceholder (name : String) : String :=
  "--- Image file selected: " ++ name ++ " --- (Content will be transcribed by AI)"

/-- `handleFileChange` (App.jsx:229-238): with a file, store it and
overwrite the text input with the placeholder; with no file, clear both. -/
def handleFileChange (file : Option String) (st : UIState) : UIState :=
  match file with
  | some nm => { st with imageFile := some nm, inputText := imagePlaceholder nm }
  | none => { st with imageFile := none, inputText := "" }

/-- The options of the headline-count selector (App.jsx:308):
`Array.from(\x7blength: 5\x7d, (_, i) => 5 + i * 4)`. -/
def headlineOptions : List Nat :=
  (List.range 5).map (fun i => 5 + i * 4)

/-- The initial value of the `numHeadlines` state (App.jsx:64). -/
def defaultNumHeadlines : Nat := 10

/-! ## Transport response shape and attempt classification (App.jsx:162-204) -/

/-- One part of a candidate content; `text` is optional as in the response
JSON. -/
structure Part where
  text : Option String

/-- The content of a candidate. -/
structure Content where
  parts : List Part

/-- One candidate of the generate-content response. -/
structure Candidate where
  content : Option Content
  finishReason : Option String

/-- The decoded body of a transport response; an absent `candidates` array
is modelled as the empty list. -/
structure GeminiResult where
  candidates : List Candidate

/-- The optional chain `result.candidates?.[0]?.content?.parts?.[0]?.text`
(App.jsx:178). -/
def jsonTextOf (r : GeminiResult) : Option String :=
  (((r.candidates.head?).bind (fun c => c.content)).bind
    (fun ct => ct.parts.head?)).bind (fun p => p.text)

/-- The optional chain `result.candidates?.[0]?.finishReason`
(App.jsx:182). -/
def finishReasonOf (r : GeminiResult) : Option String :=
  (r.candidates.head?).bind (fun c => c.finishReason)

/-- The outcome of one `fetch` call: a network exception, a non-ok HTTP
status, or a decoded response body. -/
inductive FetchOutcome where
  | netError : String → FetchOutcome
  | httpError : Nat → FetchOutcome
  | ok : GeminiResult → FetchOutcome

/-- The message of the error thrown on a non-ok HTTP status
(App.jsx:174). -/
def httpMsg (status : Nat) : String :=
  "HTTP error! status: " ++ toString status

/-- The message of the error thrown when the finish reason is SAFETY
(App.jsx:183). -/
def safetyMsg : String :=
  "AI output was blocked due to safety settings. Please adjust the input text."

/-- The message of the error thrown when the response has no text content
and no safety block (App.jsx:185). -/
def emptyMsg : String :=
  "AI returned no JSON content. The prompt might be too complex or the model failed."

/-- Models the message of the SyntaxError thrown by `JSON.parse` on
malformed input; its exact text is engine-specific and no theorem below
depends on it. -/
def jsonParseErrMsg : String := "Unexpected token in JSON"

/-- The error message for falsy text content (App.jsx:180-186): the safety
message when the finish reason is SAFETY, the empty-content message
otherwise. -/
def noTextMsg (r : GeminiResult) : String :=
  if finishReasonOf r = some "SAFETY" then safetyMsg else emptyMsg

/-- The body of one iteration of the retry loop (App.jsx:166-193): classify
the fetch outcome into a parsed analysis or a thrown error message.  A falsy
(`undefined` or empty) text field triggers the safety/empty classification;
otherwise the text is cleaned and parsed. -/
def attemptResult (o : FetchOutcome) : Except String JVal :=
  match o with
  | FetchOutcome.netError m => Except.error m
  | FetchOutcome.httpError st => Except.error (httpMsg st)
  | FetchOutcome.ok r =>
    match jsonTextOf r with
    | some t =>
      if t = "" then Except.error (noTextMsg r)
      else
        match jparse (cleanJson t) with
        | some v => Except.ok v
        | none => Except.error jsonParseErrMsg
    | none => Except.error (noTextMsg r)

/-- `maxRetries` (App.jsx:162). -/
def maxRetries : Nat := 3

/-- The terminal error message after the retry loop exhausts
(App.jsx:204). -/
def finalErrMsg (lastErrMsg : String) : String :=
  "Analysis failed after " ++ toString maxRetries ++ " attempts. Error: " ++ lastErrMsg

/-- The observable result of one call of the pipeline: how many fetch calls
were issued, the backoff delays awaited between attempts (in order), and
either the stored analysis or the error message shown to the user. -/
structure RunResult where
  calls : Nat
  delays : List Nat
  outcome : Except String JVal

/-- The retry loop of `fetchGeminiAnalysis` (App.jsx:165-202), with
`attempt` the 0-indexed attempt number and `remaining` the number of
attempts still allowed (`maxRetries - attempt`).  On failure with attempts
remaining, wait `2 ^ attempt * 1000` and recurse; after the final failure,
set the terminal error. -/
def loopGo (responses : Nat → FetchOutcome) : Nat → Nat → String → RunResult
  | _, 0, lastErrMsg => ⟨0, [], Except.error (finalErrMsg lastErrMsg)⟩
  | attempt, remaining+1, _ =>
    match attemptResult (responses attempt) with
    | Except.ok v => ⟨1, [], Except.ok v⟩
    | Except.error m =>
      if remaining = 0 then ⟨1, [], Except.error (finalErrMsg m)⟩
      else
        let rest := loopGo responses (attempt + 1) remaining m
        ⟨rest.calls + 1, (2 ^ attempt * 1000) :: rest.delays, rest.outcome⟩

/-- The arguments of `fetchGeminiAnalysis(base64Image, textInput)`. -/
structure FetchInput where
  base64Image : Option String
  textInput : String

/-- JavaScript falsiness of the optional base64 string: `null` or the empty
string. -/
def optFalsy (o : Option String) : Prop := o.getD "" = ""

instance (o : Option String) : Decidable (optFalsy o) := by
  unfold optFalsy; infer_instance

/-- The error set when both inputs are absent (App.jsx:119). -/
def noInputMsg : String := "Please provide text or an image to analyze."

/-- `fetchGeminiAnalysis` (App.jsx:117-204), with transport modelled by the
oracle `responses` giving the outcome of each attempt: refuse with the
no-input error and zero calls when both inputs are falsy, else run the
retry loop from attempt 0. -/
def fetchGeminiAnalysis (inp : FetchInput) (responses : Nat → FetchOutcome) : RunResult :=
  if inp.textInput = "" ∧ optFalsy inp.base64Image then
    ⟨0, [], Except.error noInputMsg⟩
  else
    loopGo responses 0 maxRetries ""

/-! ## String helpers -/

theorem str_data_append (a b : String) : (a ++ b).data = a.data ++ b.data := rfl

theorem str_ext {a b : String} (h : a.data = b.data) : a = b := by
  cases a; cases b; exact congrArg String.mk h

theorem str_append_assoc (a b c : String) : (a ++ b) ++ c = a ++ (b ++ c) :=
  str_ext (by simp [str_data_append, List.append_assoc])

/-- `pat` occurs as a contiguous substring of `s`. -/
def strContains (s pat : String) : Prop := pat.data <:+: s.data

theorem strContains_of_split (s pre pat suf : String) (h : s = pre ++ pat ++ suf) :
    strContains s pat := by
  refine ⟨pre.data, suf.data, ?_⟩
  rw [h, str_data_append, str_data_append]

theorem finalErr_split (m : String) :
    finalErrMsg m = "Analysis failed after " ++ "3 attempts" ++ (". Error: " ++ m) := by
  have hc : ("Analysis failed after " ++ toString maxRetries) ++ " attempts. Error: "
      = ("Analysis failed after " ++ "3 attempts") ++ ". Error: " := by decide
  rw [finalErrMsg, hc, str_append_assoc]

theorem finalErr_mentions (m : String) : strContains (finalErrMsg m) "3 attempts" :=
  strContains_of_split _ "Analysis failed after " "3 attempts" (". Error: " ++ m)
    (by rw [finalErr_split])

/-! ## Trimming lemmas -/

theorem dropWhile_dropWhile (p : Char → Bool) (l : List Char) :
    List.dropWhile p (List.dropWhile p l) = List.dropWhile p l := by
  induction l with
  | nil => rfl
  | cons a t ih =>
    cases hpa : p a
    · simp [List.dropWhile_cons, hpa]
    · simp [List.dropWhile_cons, hpa, ih]

theorem dropWhile_suffix_ex (p : Char → Bool) (l : List Char) :
    ∃ u, u ++ List.dropWhile p l = l := by
  induction l with
  | nil => exact ⟨[], rfl⟩
  | cons a t ih =>
    cases hpa : p a
    · exact ⟨[], by simp [List.dropWhile_cons, hpa]⟩
    · obtain ⟨u, hu⟩ := ih
      exact ⟨a :: u, by simp [List.dropWhile_cons, hpa, hu]⟩

theorem length_dropWhile_le (p : Char → Bool) (l : List Char) :
    (List.dropWhile p l).length ≤ l.length := by
  induction l with
  | nil => exact Nat.le_refl _
  | cons a t ih =>
    cases hpa : p a
    · simp [List.dropWhile_cons, hpa]
    · simp only [List.dropWhile_cons, hpa, if_pos]
      exact ih.trans (Nat.le_succ _)

theorem ltrim_ltrim (l : List Char) : ltrim (ltrim l) = ltrim l :=
  dropWhile_dropWhile isWS l

theorem rtrim_rtrim (l : List Char) : rtrim (rtrim l) = rtrim l := by
  simp [rtrim, List.reverse_reverse, dropWhile_dropWhile]

theorem ltrim_rtrim_of (x : List Char) (hx : ltrim x = x) : ltrim (rtrim x) = rtrim x := by
  rcases hr : rtrim x with _ | ⟨c, t⟩
  · rfl
  · obtain ⟨u, hu⟩ := dropWhile_suffix_ex isWS x.reverse
    have hpre : rtrim x ++ u.reverse = x := by
      rw [rtrim, ← List.reverse_append, hu, List.reverse_reverse]
    have hxform : x = c :: (t ++ u.reverse) := by
      rw [← hpre, hr]; simp
    have hc : isWS c = false := by
      cases hcc : isWS c
      · rfl
      · exfalso
        rw [hxform] at hx
        rw [ltrim, List.dropWhile_cons, if_pos (by simp [hcc])] at hx
        have hlen := congrArg List.length hx
        have hle := length_dropWhile_le isWS (t ++ u.reverse)
        rw [List.length_cons] at hlen
        omega
    rw [ltrim, List.dropWhile_cons, if_neg (by simp [hc])]

theorem trimChars_trimChars (l : List Char) : trimChars (trimChars l) = trimChars l := by
  unfold trimChars
  rw [ltrim_rtrim_of (ltrim l) (ltrim_ltrim l), rtrim_rtrim]

theorem ltrim_append_of_nil (m r : List Char) (h : ltrim m = []) :
    ltrim (m ++ r) = ltrim r := by
  induction m with
  | nil => rfl
  | cons a t ih =>
    cases hpa : isWS a
    · simp [ltrim, List.dropWhile_cons, hpa] at h
    · simp only [ltrim, List.dropWhile_cons, hpa, if_true] at h
      simp only [List.cons_append, ltrim, List.dropWhile_cons, hpa, if_true]
      exact ih h

theorem ltrim_append_of_ne (m r : List Char) (h : ltrim m ≠ []) :
    ltrim (m ++ r) = ltrim m ++ r := by
  induction m with
  | nil => exact absurd rfl h
  | cons a t ih =>
    cases hpa : isWS a
    · simp [List.cons_append, ltrim, List.dropWhile_cons, hpa]
    · simp only [ltrim, List.dropWhile_cons, hpa, if_true] at h
      simp only [List.cons_append, ltrim, List.dropWhile_cons, hpa, if_true]
      exact ih h

theorem rtrim_append_nl (y : List Char) : rtrim (y ++ ['\n']) = rtrim y := by
  have h : isWS '\n' = true := rfl
  simp [rtrim, List.reverse_append, List.dropWhile_cons, h]

theorem trim_wrap (m : List Char) : trimChars ('\n' :: (m ++ ['\n'])) = trimChars m := by
  unfold trimChars
  have h1 : ltrim ('\n' :: (m ++ ['\n'])) = ltrim (m ++ ['\n']) := by
    rw [ltrim, List.dropWhile_cons, if_pos (by decide)]
    rfl
  rw [h1]
  by_cases hm : ltrim m = []
  · rw [ltrim_append_of_nil m ['\n'] hm, hm]
    rfl
  · rw [ltrim_append_of_ne m ['\n'] hm, rtrim_append_nl]

/-! ## Fence-removal lemmas -/

theorem hasFence_tail (a : Char) (t : List Char) (h : hasFence (a :: t) = false) :
    hasFence t = false := by
  rcases t with _ | ⟨b, _ | ⟨c, r⟩⟩
  · rfl
  · rfl
  · rw [hasFence] at h
    split at h
    · exact absurd h (by simp)
    · exact h

theorem hasFence_cons_head (a b c : Char) (r : List Char)
    (h : hasFence (a :: b :: c :: r) = false) :
    ¬ (a = '\x60' ∧ b = '\x60' ∧ c = '\x60') := by
  intro hc
  rw [hasFence, if_pos hc] at h
  exact absurd h (by simp)

theorem hasFence_cons_of_ne (a : Char) (l : List Char) (ha : a ≠ '\x60')
    (h : hasFence l = false) : hasFence (a :: l) = false := by
  rcases l with _ | ⟨b, _ | ⟨c, r⟩⟩
  · rfl
  · rfl
  · rw [hasFence, if_neg (by rintro ⟨h1, -, -⟩; exact ha h1)]
    exact h

theorem removeFences_cons_of_neg (a b c : Char) (r : List Char)
    (hcond : ¬ (a = '\x60' ∧ b = '\x60' ∧ c = '\x60')) :
    removeFences (a :: b :: c :: r) = a :: removeFences (b :: c :: r) := by
  rw [removeFences.eq_def]
  dsimp only
  rw [if_neg hcond]

theorem removeFences_id (l : List Char) (h : hasFence l = false) :
    removeFences l = l := by
  induction l with
  | nil => rfl
  | cons a t ih =>
    rcases t with _ | ⟨b, _ | ⟨c, r⟩⟩
    · rfl
    · rfl
    · rw [removeFences_cons_of_neg a b c r (hasFence_cons_head a b c r h)]
      rw [ih (hasFence_tail a _ h)]

theorem removeFences_close (l : List Char) (h : hasFence l = false) :
    removeFences (l ++ ['\n', '\x60', '\x60', '\x60']) = l ++ ['\n'] := by
  induction l with
  | nil => rfl
  | cons a t ih =>
    rcases t with _ | ⟨b, _ | ⟨c, r⟩⟩
    · show removeFences (a :: '\n' :: '\x60' :: '\x60' :: '\x60' :: []) = a :: '\n' :: []
      rw [removeFences_cons_of_neg _ _ _ _ (by rintro ⟨-, hb, -⟩; exact absurd hb (by decide))]
      rfl
    · show removeFences (a :: b :: '\n' :: '\x60' :: '\x60' :: '\x60' :: []) = a :: b :: '\n' :: []
      rw [removeFences_cons_of_neg _ _ _ _ (by rintro ⟨-, -, hc⟩; exact absurd hc (by decide))]
      rw [removeFences_cons_of_neg _ _ _ _ (by rintro ⟨-, hb, -⟩; exact absurd hb (by decide))]
      rfl
    · have ih2 := ih (hasFence_tail a _ h)
      simp only [List.cons_append] at ih2 ⊢
      rw [removeFences_cons_of_neg a b c _ (hasFence_cons_head a b c r h)]
      rw [ih2]

theorem removeFences_wrap (s : String) (hf : hasFence s.data = false) :
    removeFences (wrapFences s).data = '\n' :: (s.data ++ ['\n']) := by
  have hdata : (wrapFences s).data
      = '\x60' :: '\x60' :: '\x60' :: 'j' :: 's' :: 'o' :: 'n' :: '\n' ::
        (s.data ++ ['\n', '\x60', '\x60', '\x60']) := by
    show (("\x60\x60\x60json\n" ++ s) ++ "\n\x60\x60\x60").data = _
    rw [str_data_append, str_data_append]
    rw [show ("\x60\x60\x60json\n" : String).data
      = ['\x60', '\x60', '\x60', 'j', 's', 'o', 'n', '\n'] from rfl]
    rw [show ("\n\x60\x60\x60" : String).data = ['\n', '\x60', '\x60', '\x60'] from rfl]
    simp [List.append_assoc]
  rw [hdata]
  rw [removeFences.eq_def]
  dsimp only
  rw [if_pos ⟨rfl, rfl, rfl⟩]
  show removeFences (('\n' :: s.data) ++ ['\n', '\x60', '\x60', '\x60']) = _
  rw [removeFences_close _ (hasFence_cons_of_ne '\n' s.data (by decide) hf)]
  simp

theorem cleanJson_wrap (s : String) (hf : hasFence s.data = false) :
    cleanJson (wrapFences s) = String.mk (trimChars s.data) := by
  unfold cleanJson
  rw [removeFences_wrap s hf, trim_wrap]

/-! ## Attempt classification lemmas -/

/-- A transport-successful response whose text field is falsy and whose
finish reason is SAFETY (the safety-blocked shape of the spec). -/
def isSafetyBlockedResp (o : FetchOutcome) : Prop :=
  ∃ r, o = FetchOutcome.ok r ∧ (jsonTextOf r = none ∨ jsonTextOf r = some "") ∧
    finishReasonOf r = some "SAFETY"

/-- A transport-successful response whose text field is falsy without a
safety block (the empty-response shape of the spec). -/
def isEmptyResp (o : FetchOutcome) : Prop :=
  ∃ r, o = FetchOutcome.ok r ∧ (jsonTextOf r = none ∨ jsonTextOf r = some "") ∧
    finishReasonOf r ≠ some "SAFETY"

/-- A transport-successful response whose non-empty text does not parse as
JSON after the cleaning step (the malformed-JSON shape of the spec). -/
def isParseFailResp (o : FetchOutcome) : Prop :=
  ∃ r t, o = FetchOutcome.ok r ∧ jsonTextOf r = some t ∧ t ≠ "" ∧
    jparse (cleanJson t) = none

theorem attempt_safety (o : FetchOutcome) (h : isSafetyBlockedResp o) :
    attemptResult o = Except.error safetyMsg := by
  obtain ⟨r, rfl, ht, hf⟩ := h
  rcases ht with ht | ht <;> simp [attemptResult, ht, noTextMsg, hf]

theorem attempt_empty (o : FetchOutcome) (h : isEmptyResp o) :
    attemptResult o = Except.error emptyMsg := by
  obtain ⟨r, rfl, ht, hf⟩ := h
  rcases ht with ht | ht <;> simp [attemptResult, ht, noTextMsg, hf]

theorem attempt_parsefail (o : FetchOutcome) (h : isParseFailResp o) :
    attemptResult o = Except.error jsonParseErrMsg := by
  obtain ⟨r, t, rfl, ht, hne, hp⟩ := h
  simp [attemptResult, ht, hne, hp]

/-! ## Concrete transport stubs used by witnesses and counterexamples -/

/-- A sample non-empty submission. -/
def sampleInput : FetchInput := ⟨none, "The cow eat grass."⟩

/-- Transport stub: every attempt throws a network error. -/
def stubNetFail : Nat → FetchOutcome := fun _ => FetchOutcome.netError "network down"

/-- A response with no content and finish reason SAFETY. -/
def safetyResult : GeminiResult := ⟨[⟨none, some "SAFETY"⟩]⟩

/-- Transport stub: every attempt completes with the safety-blocked
response. -/
def stubSafety : Nat → FetchOutcome := fun _ => FetchOutcome.ok safetyResult

/-- A response with no content and a non-SAFETY finish reason. -/
def emptyResult : GeminiResult := ⟨[⟨none, some "STOP"⟩]⟩

/-- Transport stub: every attempt completes with the empty response. -/
def stubEmpty : Nat → FetchOutcome := fun _ => FetchOutcome.ok emptyResult

/-- A response whose text is not JSON. -/
def badJsonResult : GeminiResult := ⟨[⟨some ⟨[⟨some "not json"⟩]⟩, some "STOP"⟩]⟩

/-- Transport stub: every attempt completes with unparseable text. -/
def stubBadJson : Nat → FetchOutcome := fun _ => FetchOutcome.ok badJsonResult

/-- A well-formed JSON object providing only the annotated-text field; the
two array fields of the schema are absent. -/
def partialJsonText : String := "\x7b\x22textWithErrorsHighlighted\x22:\x22x\x22\x7d"

/-- A response whose text parses but omits the array fields. -/
def partialResult : GeminiResult := ⟨[⟨some ⟨[⟨some partialJsonText⟩]⟩, some "STOP"⟩]⟩

/-- Transport stub: every attempt completes with the partial-schema
response. -/
def stubPartial : Nat → FetchOutcome := fun _ => FetchOutcome.ok partialResult

/-- A well-formed JSON string whose string value contains a triple-backtick
fence marker. -/
def jsonWithFence : String := "\x7b\x22a\x22:\x22\x60\x60\x60\x22\x7d"

/-- A small well-formed JSON string without fence markers. -/
def jsonPlain : String := "\x7b\x22a\x22:1\x7d"

/-- Extract the string value of the first field of a parsed JSON object;
used to separate two parse results. -/
def firstFieldString (o : Option JVal) : Option String :=
  match o with
  | some (JVal.jobj ((_, JVal.jstr v) :: _)) => some v
  | _ => none

/-! ## Claim theorems -/

/-- Claim C1: for every submission whose attempts all fail, the pipeline
performs exactly 3 outbound calls, waits `2 ^ attempt * 1000` time units
between consecutive attempts (1000 after the first failure, 2000 after the
second, no wait before the first attempt and none after the final one), and
returns a terminal error whose message references 3 attempts. -/
theorem claim_C1_all_attempts_fail (inp : FetchInput) (responses : Nat → FetchOutcome)
    (hin : ¬ (inp.textInput = "" ∧ optFalsy inp.base64Image))
    (m0 m1 m2 : String)
    (h0 : attemptResult (responses 0) = Except.error m0)
    (h1 : attemptResult (responses 1) = Except.error m1)
    (h2 : attemptResult (responses 2) = Except.error m2) :
    fetchGeminiAnalysis inp responses
      = ⟨3, [1000, 2000], Except.error (finalErrMsg m2)⟩ ∧
    [1000, 2000] = [2 ^ 0 * 1000, 2 ^ 1 * 1000] ∧
    strContains (finalErrMsg m2) "3 attempts" := by
  refine ⟨?_, by decide, finalErr_mentions m2⟩
  rw [fetchGeminiAnalysis, if_neg hin]
  simp [loopGo, maxRetries, h0, h1, h2]

/-- Witness for C1: a stub transport whose every attempt raises a network
error drives the pipeline through 3 calls, delays 1000 and 2000, and the
terminal message about 3 attempts. -/
theorem claim_C1_witness :
    fetchGeminiAnalysis sampleInput stubNetFail
      = ⟨3, [1000, 2000], Except.error (finalErrMsg "network down")⟩ ∧
    [1000, 2000] = [2 ^ 0 * 1000, 2 ^ 1 * 1000] ∧
    strContains (finalErrMsg "network down") "3 attempts" :=
  claim_C1_all_attempts_fail sampleInput stubNetFail (by decide)
    "network down" "network down" "network down" rfl rfl rfl

/-- Claim C2 counterexample: with a transport stub that always completes
with a SAFETY-blocked response, the pipeline performs 3 outbound calls, not
exactly 1: the safety classification is thrown inside the try block and is
caught and retried by the loop like any other failure. -/
theorem claim_C2_counterexample :
    (fetchGeminiAnalysis sampleInput stubSafety).calls = 3 ∧
    (fetchGeminiAnalysis sampleInput stubSafety).calls ≠ 1 := by decide

/-- Claim C2 (amended): a response that completes transport with the safety
flag set is classified with the safety message but treated as a failed
attempt and retried; when every attempt is safety-blocked the pipeline
performs 3 outbound calls and returns the terminal error embedding the
safety message. -/
theorem claim_C2_safety_is_retried (inp : FetchInput) (responses : Nat → FetchOutcome)
    (hin : ¬ (inp.textInput = "" ∧ optFalsy inp.base64Image))
    (hall : ∀ i, i < 3 → isSafetyBlockedResp (responses i)) :
    attemptResult (responses 0) = Except.error safetyMsg ∧
    fetchGeminiAnalysis inp responses
      = ⟨3, [1000, 2000], Except.error (finalErrMsg safetyMsg)⟩ := by
  have h0 := attempt_safety _ (hall 0 (by decide))
  have h1 := attempt_safety _ (hall 1 (by decide))
  have h2 := attempt_safety _ (hall 2 (by decide))
  refine ⟨h0, ?_⟩
  rw [fetchGeminiAnalysis, if_neg hin]
  simp [loopGo, maxRetries, h0, h1, h2]

/-- Witness for the amended C2 on the concrete safety stub. -/
theorem claim_C2_witness :
    attemptResult (stubSafety 0) = Except.error safetyMsg ∧
    fetchGeminiAnalysis sampleInput stubSafety
      = ⟨3, [1000, 2000], Except.error (finalErrMsg safetyMsg)⟩ :=
  claim_C2_safety_is_retried sampleInput stubSafety (by decide)
    (fun _ _ => ⟨safetyResult, rfl, Or.inl rfl, rfl⟩)

/-- Claim C3 counterexample: with a transport stub whose every response
carries unparseable text, the pipeline performs 3 outbound calls, not 1:
the JSON.parse failure is thrown inside the try block and retried. -/
theorem claim_C3_counterexample :
    (fetchGeminiAnalysis sampleInput stubBadJson).calls = 3 ∧
    (fetchGeminiAnalysis sampleInput stubBadJson).calls ≠ 1 := by decide

/-- Claim C3 (amended): a parse failure after transport success is treated
as a failed attempt and retried like any other failure; when every attempt
yields unparseable text the pipeline performs 3 outbound calls and returns
a terminal error referencing 3 attempts. -/
theorem claim_C3_parse_failure_is_retried (inp : FetchInput) (responses : Nat → FetchOutcome)
    (hin : ¬ (inp.textInput = "" ∧ optFalsy inp.base64Image))
    (hall : ∀ i, i < 3 → isParseFailResp (responses i)) :
    fetchGeminiAnalysis inp responses
      = ⟨3, [1000, 2000], Except.error (finalErrMsg jsonParseErrMsg)⟩ ∧
    strContains (finalErrMsg jsonParseErrMsg) "3 attempts" := by
  have h0 := attempt_parsefail _ (hall 0 (by decide))
  have h1 := attempt_parsefail _ (hall 1 (by decide))
  have h2 := attempt_parsefail _ (hall 2 (by decide))
  refine ⟨?_, finalErr_mentions _⟩
  rw [fetchGeminiAnalysis, if_neg hin]
  simp [loopGo, maxRetries, h0, h1, h2]

/-- Witness for the amended C3 on the concrete unparseable-text stub. -/
theorem claim_C3_witness :
    fetchGeminiAnalysis sampleInput stubBadJson
      = ⟨3, [1000, 2000], Except.error (finalErrMsg jsonParseErrMsg)⟩ ∧
    strContains (finalErrMsg jsonParseErrMsg) "3 attempts" :=
  claim_C3_parse_failure_is_retried sampleInput stubBadJson (by decide)
    (fun _ _ => ⟨badJsonResult, "not json", rfl, rfl, by decide, rfl⟩)

/-- Claim C4: when both the text input and the image input are absent
(falsy), the pipeline fails with the no-input error and issues zero
outbound calls. -/
theorem claim_C4_no_input (inp : FetchInput) (responses : Nat → FetchOutcome)
    (ht : inp.textInput = "") (hi : optFalsy inp.base64Image) :
    fetchGeminiAnalysis inp responses = ⟨0, [], Except.error noInputMsg⟩ := by
  rw [fetchGeminiAnalysis, if_pos ⟨ht, hi⟩]

/-- Witness for C4 at the empty submission. -/
theorem claim_C4_witness :
    fetchGeminiAnalysis ⟨none, ""⟩ stubNetFail = ⟨0, [], Except.error noInputMsg⟩ :=
  claim_C4_no_input ⟨none, ""⟩ stubNetFail rfl rfl

/-- Claim C5: a transport-successful response with no usable content body
(no text, no safety block) is classified with the empty-content message and
treated as a failed attempt subject to retry; when every attempt is such,
further calls are made until the attempt count is exhausted at 3. -/
theorem claim_C5_empty_response_retried (inp : FetchInput) (responses : Nat → FetchOutcome)
    (hin : ¬ (inp.textInput = "" ∧ optFalsy inp.base64Image))
    (hall : ∀ i, i < 3 → isEmptyResp (responses i)) :
    attemptResult (responses 0) = Except.error emptyMsg ∧
    2 ≤ (fetchGeminiAnalysis inp responses).calls ∧
    fetchGeminiAnalysis inp responses
      = ⟨3, [1000, 2000], Except.error (finalErrMsg emptyMsg)⟩ := by
  have h0 := attempt_empty _ (hall 0 (by decide))
  have h1 := attempt_empty _ (hall 1 (by decide))
  have h2 := attempt_empty _ (hall 2 (by decide))
  have hrun : fetchGeminiAnalysis inp responses
      = ⟨3, [1000, 2000], Except.error (finalErrMsg emptyMsg)⟩ := by
    rw [fetchGeminiAnalysis, if_neg hin]
    simp [loopGo, maxRetries, h0, h1, h2]
  exact ⟨h0, by rw [hrun]; decide, hrun⟩

/-- Witness for C5 on the concrete empty-response stub. -/
theorem claim_C5_witness :
    attemptResult (stubEmpty 0) = Except.error emptyMsg ∧
    2 ≤ (fetchGeminiAnalysis sampleInput stubEmpty).calls ∧
    fetchGeminiAnalysis sampleInput stubEmpty
      = ⟨3, [1000, 2000], Except.error (finalErrMsg emptyMsg)⟩ :=
  claim_C5_empty_response_retried sampleInput stubEmpty (by decide)
    (fun _ _ => ⟨emptyResult, rfl, Or.inl rfl, by decide⟩)

/-- Claim C6 counterexample: for the well-formed JSON string
`\x7b"a":"\x60\x60\x60"\x7d`, whose string value contains a fence marker, cleaning
the fenced wrapping and parsing does not reproduce the result of parsing
the string directly: the global regex also strips the inner backticks. -/
theorem claim_C6_counterexample :
    (jparse jsonWithFence).isSome = true ∧
    jparse (cleanJson (wrapFences jsonWithFence)) ≠ jparse jsonWithFence := by
  refine ⟨rfl, fun h => ?_⟩
  exact absurd (congrArg firstFieldString h) (by decide)

/-- Claim C6 (amended): for every JSON string containing no triple-backtick
fence marker, stripping the code fences from its fenced wrapping and
parsing yields a result identical to parsing the string directly. -/
theorem claim_C6_fence_roundtrip (s : String) (hf : hasFence s.data = false) :
    jparse (cleanJson (wrapFences s)) = jparse s := by
  have h := cleanJson_wrap s hf
  rw [jparse, jparse, h]
  exact congrArg jparseCore (trimChars_trimChars s.data)

/-- Witness for the amended C6 at a concrete fence-free JSON object. -/
theorem claim_C6_witness :
    hasFence jsonPlain.data = false ∧
    (jparse jsonPlain).isSome = true ∧
    jparse (cleanJson (wrapFences jsonPlain)) = jparse jsonPlain :=
  ⟨by decide, rfl, claim_C6_fence_roundtrip jsonPlain (by decide)⟩

/-- Claim C7 counterexample: a successful submission whose response JSON
omits the `suggestedCorrections` array yields a stored analysis in which
that field is absent (`none`), not normalized to an empty sequence. -/
theorem claim_C7_counterexample :
    (fetchGeminiAnalysis sampleInput stubPartial).outcome
      = Except.ok (JVal.jobj [("textWithErrorsHighlighted", JVal.jstr "x")]) ∧
    getField (JVal.jobj [("textWithErrorsHighlighted", JVal.jstr "x")])
      "suggestedCorrections" = none :=
  ⟨rfl, rfl⟩

/-- Claim C7 (amended): on success the pipeline stores the parsed JSON
exactly as produced by the parser, with no normalization: fields absent
from the parsed JSON remain absent. -/
theorem claim_C7_result_unnormalized (inp : FetchInput) (responses : Nat → FetchOutcome)
    (hin : ¬ (inp.textInput = "" ∧ optFalsy inp.base64Image))
    (r : GeminiResult) (t : String) (v : JVal)
    (h0 : responses 0 = FetchOutcome.ok r)
    (ht : jsonTextOf r = some t) (hne : t ≠ "")
    (hp : jparse (cleanJson t) = some v) :
    fetchGeminiAnalysis inp responses = ⟨1, [], Except.ok v⟩ := by
  have ha : attemptResult (responses 0) = Except.ok v := by
    rw [h0]
    simp [attemptResult, ht, hne, hp]
  rw [fetchGeminiAnalysis, if_neg hin]
  simp [loopGo, maxRetries, ha]

/-- Witness for the amended C7 on the partial-schema stub. -/
theorem claim_C7_witness :
    fetchGeminiAnalysis sampleInput stubPartial
      = ⟨1, [], Except.ok (JVal.jobj [("textWithErrorsHighlighted", JVal.jstr "x")])⟩ :=
  claim_C7_result_unnormalized sampleInput stubPartial (by decide)
    partialResult partialJsonText _ rfl rfl (by decide) rfl

/-- Claim C8: for every requested headline count N with 5 <= N <= 25, the
instruction text placed in the transport payload literally contains the
decimal value N. -/
theorem claim_C8_headline_count (hasImage : Bool) (n : Nat) (t : String)
    (h5 : 5 ≤ n) (h25 : n ≤ 25) :
    strContains (instructionText hasImage n t) (toString n) := by
  cases hasImage
  · apply strContains_of_split _ promptHead (toString n) (promptMid ++ (artMarker ++ t))
    simp [instructionText, promptText, str_append_assoc]
  · apply strContains_of_split _ (imgDirective ++ promptHead) (toString n)
      (promptMid ++ (artMarker ++ t))
    simp [instructionText, promptText, str_append_assoc]

/-- Witness for C8 at N = 5 with a sample article text. -/
theorem claim_C8_witness :
    5 ≤ 5 ∧ 5 ≤ 25 ∧
    strContains (instructionText false 5 "The cow eat grass.") (toString 5) :=
  ⟨by decide, by decide,
    claim_C8_headline_count false 5 "The cow eat grass." (by decide) (by decide)⟩

/-- Claim C9: the headline-count selector offers exactly the five values
5, 9, 13, 17 and 21 (generated as 5 + 4 * i for i in 0..4); 25 is not among
them, and the default 10 is itself not a selectable option. -/
theorem claim_C9_selector_options :
    headlineOptions = [5, 9, 13, 17, 21] ∧
    ¬ (25 ∈ headlineOptions) ∧
    defaultNumHeadlines = 10 ∧
    ¬ (defaultNumHeadlines ∈ headlineOptions) := by decide

/-- Claim C10: selecting an image file overwrites the text input with the
placeholder string naming the file plus a transcription note; that
placeholder is non-empty, and it is what follows the Article Text marker in
the instruction sent to transport. -/
theorem claim_C10_image_placeholder (st : UIState) (nm : String) (n : Nat) :
    (handleFileChange (some nm) st).inputText = imagePlaceholder nm ∧
    imagePlaceholder nm ≠ "" ∧
    strContains (instructionText true n ((handleFileChange (some nm) st).inputText))
      (artMarker ++ imagePlaceholder nm) := by
  refine ⟨rfl, ?_, ?_⟩
  · intro h
    have h2 : (imagePlaceholder nm).data = [] := by rw [h]
    rw [imagePlaceholder, str_data_append, str_data_append] at h2
    rcases List.append_eq_nil.mp h2 with ⟨h3, -⟩
    rcases List.append_eq_nil.mp h3 with ⟨h4, -⟩
    exact absurd h4 (by decide)
  · apply strContains_of_split _ (imgDirective ++ (promptHead ++ (toString n ++ promptMid)))
      (artMarker ++ imagePlaceholder nm) ""
    simp [instructionText, promptText, handleFileChange, str_append_assoc]

end AppPipeline
